import Mathlib

/-!
Verification of the `PyInMemStore` class of `pyinmemstore.py`, a simplified
in-memory key-value store with TTL expiry.

Modelling decisions, each tied to a construct of the source:

* Python `dict` / `collections.defaultdict` objects are modelled as association
  lists `List (String × α)` with unique keys (Python dictionaries cannot hold a
  key twice).  `dlookup` is `dict.get`, `dset` is `d[k] = v` (update in place,
  new keys appended), `ddel` is `del d[k]` restricted to the case where the key
  is present, `dkeys` is `list(d.keys())`.  A `del d[k]` for an absent key
  raises `KeyError` even on a `defaultdict` (the default factory only applies
  to `__getitem__`); operations that can reach such a `del` therefore return
  `Option`, with `none` marking the raised exception.
* Python floats holding timestamps are modelled as `PyFloat`: either a finite
  rational or the `float("inf")` sentinel used as the default of the `expiry`
  defaultdict.  `time.time()` values are passed in explicitly as a rational
  `now` argument.
* Python `int(x)` on a float truncates toward zero; on `float("inf")` it raises
  `OverflowError`.  `pyint` is the finite case; `ttl` returns `none` in its
  first component when the source would raise.
* The background cleanup thread is modelled by `cleanupTick`, one iteration of
  the `while True` loop body of `_cleanup_expired_keys` at a given `now`; the
  lock makes each iteration atomic with respect to the public operations.
-/

/-- Lookup in an association list: models `dict.get(key)` (and `key in dict`
via `Option.isSome`). -/
def dlookup {α : Type} : List (String × α) → String → Option α
  | [], _ => none
  | p :: rest, k => if p.1 = k then some p.2 else dlookup rest k

/-- Membership test: models the Python expression `key in dict`. -/
def dcontains {α : Type} (m : List (String × α)) (k : String) : Bool :=
  (dlookup m k).isSome

/-- Update: models `dict[key] = value` — replaces the value of an existing key
in place, appends a fresh key at the end. -/
def dset {α : Type} : List (String × α) → String → α → List (String × α)
  | [], k, v => [(k, v)]
  | p :: rest, k, v => if p.1 = k then (k, v) :: rest else p :: dset rest k v

/-- Deletion: models `del dict[key]` when the key is present (keys are unique
in a Python dictionary, so removing every matching entry coincides with
removing the one entry). -/
def ddel {α : Type} (m : List (String × α)) (k : String) : List (String × α) :=
  m.filter (fun p => decide (p.1 ≠ k))

/-- Batch deletion: models the `for key in expired_keys: del d[key]` loop of
`_cleanup_expired_keys`, given that every listed key is present. -/
def ddelAll {α : Type} (m : List (String × α)) (ks : List String) : List (String × α) :=
  m.filter (fun p => decide (p.1 ∉ ks))

/-- Key listing: models `list(dict.keys())`. -/
def dkeys {α : Type} (m : List (String × α)) : List String :=
  m.map Prod.fst

/-- A Python float as used for timestamps by the store: a finite value, or the
`float("inf")` sentinel that `self.expiry` defaults to. -/
inductive PyFloat where
  | fin : ℚ → PyFloat
  | inf : PyFloat
deriving DecidableEq

/-- Models the Python comparison `expiry_time < now` of `_cleanup_expired_keys`
(`float("inf") < now` is `False` for every finite `now`). -/
def PyFloat.ltNow : PyFloat → ℚ → Bool
  | PyFloat.fin q, now => decide (q < now)
  | PyFloat.inf, _ => false

/-- Models Python `int(x)` on a finite float: truncation toward zero.  A
rational is kept in lowest terms with a positive denominator, so truncating
division of the numerator by the denominator is exactly that. -/
def pyint (q : ℚ) : ℤ :=
  q.num.tdiv q.den

/-- The state of a `PyInMemStore` object: its three dictionaries.  The lock and
the cleanup thread carry no data; the lock is modelled by every operation and
every `cleanupTick` being an atomic function of the state. -/
structure PyInMemStore where
  key_value_pairs : List (String × String)
  expiry : List (String × PyFloat)
  creation_times : List (String × ℚ)
deriving DecidableEq

namespace PyInMemStore

/-- The state `__init__` produces: three empty dictionaries. -/
def emptyStore : PyInMemStore :=
  { key_value_pairs := [], expiry := [], creation_times := [] }

/-- Reading `self.expiry[key]`: a `defaultdict` lookup that yields
`float("inf")` when the key has no recorded expiry. -/
def expiryOf (s : PyInMemStore) (key : String) : PyFloat :=
  (dlookup s.expiry key).getD PyFloat.inf

/-- Models `set(self, key, value)` with `now = time.time()`: writes the value
and the creation time, leaves `self.expiry` untouched. -/
def set (s : PyInMemStore) (key value : String) (now : ℚ) : PyInMemStore :=
  { s with
    key_value_pairs := dset s.key_value_pairs key value
    creation_times := dset s.creation_times key now }

/-- Models `get(self, key)`: `self.key_value_pairs.get(key)`, with no expiry
check of any kind. -/
def get (s : PyInMemStore) (key : String) : Option String :=
  dlookup s.key_value_pairs key

/-- Models `delete(self, key)`.  When the key is present, the source executes
`del self.key_value_pairs[key]`, `del self.expiry[key]`,
`del self.creation_times[key]` in order; the second or third `del` raises
`KeyError` when its dictionary lacks the key (`defaultdict` defaults do not
apply to `del`).  `none` models the raised `KeyError`. -/
def delete (s : PyInMemStore) (key : String) : Option PyInMemStore :=
  if dcontains s.key_value_pairs key then
    if dcontains s.expiry key then
      if dcontains s.creation_times key then
        some { key_value_pairs := ddel s.key_value_pairs key
               expiry := ddel s.expiry key
               creation_times := ddel s.creation_times key }
      else none
    else none
  else some s

/-- Models `expire(self, key, seconds)` with `now = time.time()`: for a present
key, record `now + seconds` when `seconds > 0` and the past sentinel `-1`
otherwise; for an absent key, do nothing. -/
def expire (s : PyInMemStore) (key : String) (seconds : ℤ) (now : ℚ) : PyInMemStore :=
  if dcontains s.key_value_pairs key then
    if 0 < seconds then
      { s with expiry := dset s.expiry key (PyFloat.fin (now + (seconds : ℚ))) }
    else
      { s with expiry := dset s.expiry key (PyFloat.fin (-1)) }
  else s

/-- Models `ttl(self, key)` with `now = time.time()`.  For a present key the
source reads `self.expiry[key]` — a `defaultdict` access that also inserts the
default `float("inf")` when absent, reflected in the returned state — and then
computes `max(0, int(remaining))`.  When the stored expiry is the infinite
sentinel, `int` raises `OverflowError`, modelled by `none` in the first
component. -/
def ttl (s : PyInMemStore) (key : String) (now : ℚ) : Option ℤ × PyInMemStore :=
  if dcontains s.key_value_pairs key then
    match expiryOf s key with
    | PyFloat.inf =>
        (none, { s with expiry := dset s.expiry key PyFloat.inf })
    | PyFloat.fin q =>
        (some (max 0 (pyint (q - now))),
         { s with expiry := dset s.expiry key (PyFloat.fin q) })
  else (some (-2), s)

/-- Models the list comprehension of `_cleanup_expired_keys`:
`[key for key, expiry_time in self.expiry.items() if expiry_time < now]`. -/
def expiredKeys (s : PyInMemStore) (now : ℚ) : List String :=
  dkeys (s.expiry.filter (fun p => PyFloat.ltNow p.2 now))

/-- Models one iteration of the `while True` loop of `_cleanup_expired_keys`
at time `now`, performed atomically under the lock: collect the keys whose
recorded expiry is strictly before `now` and delete each from the three
dictionaries.  The `del` statements raise `KeyError` when a collected key is
missing from `key_value_pairs` or `creation_times`; `none` models that raise
(it cannot occur in states reachable through the public operations). -/
def cleanupTick (s : PyInMemStore) (now : ℚ) : Option PyInMemStore :=
  if (expiredKeys s now).all
      (fun k => dcontains s.key_value_pairs k && dcontains s.creation_times k) then
    some { key_value_pairs := ddelAll s.key_value_pairs (expiredKeys s now)
           expiry := ddelAll s.expiry (expiredKeys s now)
           creation_times := ddelAll s.creation_times (expiredKeys s now) }
  else none

/-- Models `get_all_keys(self)`: `list(self.key_value_pairs.keys())`, again
with no expiry check. -/
def get_all_keys (s : PyInMemStore) : List String :=
  dkeys s.key_value_pairs

end PyInMemStore

/-! Lemmas about the dictionary primitives. -/

theorem dlookup_dset {α : Type} (m : List (String × α)) (k k2 : String) (v : α) :
    dlookup (dset m k v) k2 = if k2 = k then some v else dlookup m k2 := by
  induction m with
  | nil =>
    by_cases h : k2 = k
    · subst h; simp [dset, dlookup]
    · have h2 : ¬ k = k2 := fun h3 => h h3.symm
      simp [dset, dlookup, h, h2]
  | cons p rest ih =>
    by_cases hp : p.1 = k
    · subst hp
      by_cases h : k2 = p.1
      · subst h; simp [dset, dlookup]
      · have h2 : ¬ p.1 = k2 := fun h3 => h h3.symm
        simp [dset, dlookup, h, h2]
    · by_cases h : k2 = k
      · subst h
        have hp2 : ¬ p.1 = k2 := hp
        simp [dset, dlookup, hp, hp2, ih]
      · by_cases hpk2 : p.1 = k2
        · simp [dset, dlookup, hp, hpk2, h]
        · simp [dset, dlookup, hp, hpk2, h, ih]

theorem dlookup_filter_none {α : Type} (m : List (String × α)) (g : String × α → Bool)
    (k : String) (hk : ∀ v, g (k, v) = false) :
    dlookup (m.filter g) k = none := by
  induction m with
  | nil => simp [dlookup]
  | cons p rest ih =>
    cases hg : g p with
    | false => simp [List.filter_cons, hg, ih]
    | true =>
      have hpk : ¬ p.1 = k := by
        intro h
        have h2 : g (k, p.2) = false := hk p.2
        rw [← h, Prod.mk.eta] at h2
        rw [hg] at h2
        simp at h2
      simp [List.filter_cons, hg, dlookup, hpk, ih]

theorem dlookup_filter_keep {α : Type} (m : List (String × α)) (g : String × α → Bool)
    (k : String) (hk : ∀ v, g (k, v) = true) :
    dlookup (m.filter g) k = dlookup m k := by
  induction m with
  | nil => simp
  | cons p rest ih =>
    by_cases hpk : p.1 = k
    · have hg : g p = true := by
        rw [show p = (k, p.2) by rw [← hpk, Prod.mk.eta]]
        exact hk p.2
      simp [List.filter_cons, hg, dlookup, hpk]
    · cases hg : g p with
      | false => simp [List.filter_cons, hg, dlookup, hpk, ih]
      | true => simp [List.filter_cons, hg, dlookup, hpk, ih]

theorem dlookup_ddel {α : Type} (m : List (String × α)) (k k2 : String) :
    dlookup (ddel m k) k2 = if k2 = k then none else dlookup m k2 := by
  by_cases h : k2 = k
  · subst h
    simp only [if_pos rfl]
    exact dlookup_filter_none m _ k2 (fun v => by simp)
  · simp only [if_neg h]
    exact dlookup_filter_keep m _ k2 (fun v => by simp [h])

theorem dlookup_ddelAll {α : Type} (m : List (String × α)) (ks : List String) (k : String) :
    dlookup (ddelAll m ks) k = if k ∈ ks then none else dlookup m k := by
  by_cases h : k ∈ ks
  · simp only [if_pos h]
    exact dlookup_filter_none m _ k (fun v => by simp [h])
  · simp only [if_neg h]
    exact dlookup_filter_keep m _ k (fun v => by simp [h])

theorem mem_dkeys {α : Type} (m : List (String × α)) (k : String) :
    k ∈ dkeys m ↔ (dlookup m k).isSome = true := by
  induction m with
  | nil => simp [dkeys, dlookup]
  | cons p rest ih =>
    simp only [dkeys, List.map_cons, List.mem_cons] at ih ⊢
    by_cases hp : p.1 = k
    · subst hp; simp [dlookup]
    · have hkp : ¬ k = p.1 := fun h => hp h.symm
      simp only [dlookup, if_neg hp, hkp, false_or]
      exact ih

theorem mem_dkeys_of_filter {α : Type} (m : List (String × α)) (f : String × α → Bool)
    (k : String) (h : k ∈ dkeys (m.filter f)) : k ∈ dkeys m := by
  simp only [dkeys, List.mem_map] at h ⊢
  obtain ⟨p, hp, rfl⟩ := h
  exact ⟨p, (List.mem_filter.mp hp).1, rfl⟩

theorem mem_dkeys_filter_iff {α : Type} (m : List (String × α)) (g : String × α → Bool)
    (k : String) (hnd : (dkeys m).Nodup) :
    k ∈ dkeys (m.filter g) ↔ ∃ v, dlookup m k = some v ∧ g (k, v) = true := by
  induction m with
  | nil => simp [dkeys, dlookup]
  | cons p rest ih =>
    obtain ⟨k1, v1⟩ := p
    rw [show dkeys ((k1, v1) :: rest) = k1 :: dkeys rest from rfl, List.nodup_cons] at hnd
    rw [List.filter_cons]
    by_cases hp : k1 = k
    · subst hp
      cases hg : g (k1, v1) with
      | true =>
        rw [if_pos rfl]
        constructor
        · intro _
          exact ⟨v1, by simp [dlookup], hg⟩
        · intro _
          show k1 ∈ dkeys ((k1, v1) :: List.filter g rest)
          simp [dkeys]
      | false =>
        rw [if_neg (by simp [hg])]
        constructor
        · intro hmem
          exact absurd (mem_dkeys_of_filter rest g k1 hmem) hnd.1
        · rintro ⟨v, hv, hgv⟩
          have hv2 : dlookup ((k1, v1) :: rest) k1 = some v1 := by simp [dlookup]
          rw [hv2, Option.some_inj] at hv
          rw [← hv, hg] at hgv
          simp at hgv
    · have hdl : dlookup ((k1, v1) :: rest) k = dlookup rest k := by simp [dlookup, hp]
      rw [hdl]
      cases hg : g (k1, v1) with
      | true =>
        rw [if_pos rfl]
        have hmc : k ∈ dkeys ((k1, v1) :: List.filter g rest) ↔
            k ∈ dkeys (List.filter g rest) := by
          have hkp : ¬ k = k1 := fun h => hp h.symm
          simp [dkeys, hkp]
        rw [hmc]
        exact ih hnd.2
      | false =>
        rw [if_neg (by simp [hg])]
        exact ih hnd.2

theorem mem_expiredKeys (s : PyInMemStore) (now : ℚ) (k : String)
    (hnd : (dkeys s.expiry).Nodup) :
    k ∈ PyInMemStore.expiredKeys s now ↔
      PyFloat.ltNow (PyInMemStore.expiryOf s k) now = true := by
  unfold PyInMemStore.expiredKeys PyInMemStore.expiryOf
  rw [mem_dkeys_filter_iff _ _ _ hnd]
  cases h : dlookup s.expiry k with
  | none => simp [h, PyFloat.ltNow]
  | some e => simp [h]

theorem pyint_nonpos (q : ℚ) (h : q ≤ 0) : pyint q ≤ 0 := by
  unfold pyint
  have hnum : q.num ≤ 0 := by
    by_contra hpos
    push_neg at hpos
    exact absurd (Rat.num_pos.mp hpos) (not_lt.mpr h)
  have hden : (0 : ℤ) ≤ (q.den : ℤ) := Int.natCast_nonneg _
  have h1 : 0 ≤ (-q.num).tdiv q.den := Int.tdiv_nonneg (by omega) hden
  have h2 : (-q.num).tdiv (q.den : ℤ) = -(q.num.tdiv q.den) := Int.neg_tdiv _ _
  omega

/-! Claim theorems. -/

/-- Claim C1, counterexample.  In the state reached by `set("k", "v")` at time
0 followed by `expire("k", -5)` at time 0, the recorded expiry of `"k"` is the
past sentinel `-1`, which is at or before a current time of `10`; the claim
says `get` must then signal absence and `list_keys` must omit the key, but
`get` returns the value and `get_all_keys` lists the key — the source performs
no read-side expiry check at all. -/
theorem C1_counterexample :
    PyInMemStore.expiryOf
        (PyInMemStore.expire (PyInMemStore.set PyInMemStore.emptyStore "k" "v" 0) "k" (-5) 0)
        "k" = PyFloat.fin (-1) ∧
    ((-1 : ℚ) ≤ 10) ∧
    PyInMemStore.get
        (PyInMemStore.expire (PyInMemStore.set PyInMemStore.emptyStore "k" "v" 0) "k" (-5) 0)
        "k" = some "v" ∧
    "k" ∈ PyInMemStore.get_all_keys
        (PyInMemStore.expire (PyInMemStore.set PyInMemStore.emptyStore "k" "v" 0) "k" (-5) 0) := by
  decide

/-- Claim C1, amended.  The read operations perform no expiry check: a present
key whose recorded expiry is a finite timestamp at or before `now` is still
returned by `get` (some value, never absence) and still listed by
`get_all_keys` until the sweeper physically removes it; `ttl` reports such a
key with remaining time clamped to `0`, never as a live positive remainder. -/
theorem C1_reads_ignore_expiry (s : PyInMemStore) (k : String) (e now : ℚ)
    (hmem : dcontains s.key_value_pairs k = true)
    (hexp : PyInMemStore.expiryOf s k = PyFloat.fin e) (hle : e ≤ now) :
    (∃ v, PyInMemStore.get s k = some v) ∧
    k ∈ PyInMemStore.get_all_keys s ∧
    (PyInMemStore.ttl s k now).1 = some 0 := by
  refine ⟨?_, ?_, ?_⟩
  · rw [dcontains] at hmem
    exact Option.isSome_iff_exists.mp hmem
  · rw [PyInMemStore.get_all_keys, mem_dkeys]
    exact hmem
  · unfold PyInMemStore.ttl
    rw [hmem, if_pos rfl, hexp]
    dsimp only
    rw [max_eq_left (pyint_nonpos _ (by linarith))]

/-- Claim C1, amended, witness at a concrete input. -/
theorem C1_reads_ignore_expiry_witness :
    (∃ v, PyInMemStore.get
        (PyInMemStore.expire (PyInMemStore.set PyInMemStore.emptyStore "k" "v" 0) "k" (-5) 0)
        "k" = some v) ∧
    "k" ∈ PyInMemStore.get_all_keys
        (PyInMemStore.expire (PyInMemStore.set PyInMemStore.emptyStore "k" "v" 0) "k" (-5) 0) ∧
    (PyInMemStore.ttl
        (PyInMemStore.expire (PyInMemStore.set PyInMemStore.emptyStore "k" "v" 0) "k" (-5) 0)
        "k" 10).1 = some 0 :=
  C1_reads_ignore_expiry
    (PyInMemStore.expire (PyInMemStore.set PyInMemStore.emptyStore "k" "v" 0) "k" (-5) 0)
    "k" (-1) 10 (by decide) (by decide) (by decide)

/-- Claim C2.  The `-2` branch for an absent key behaves as claimed, but for a
key that exists with no expiry set, `ttl` does not return `-1`: the source
computes `int(self.expiry[key] - time.time())` on the `float("inf")` default,
and `int` of an infinite float raises `OverflowError` (the `none` result),
contradicting the claim and the docstring of `ttl` itself. -/
theorem C2_ttl_crash_on_no_expiry :
    (PyInMemStore.ttl PyInMemStore.emptyStore "k" 0).1 = some (-2) ∧
    (PyInMemStore.ttl (PyInMemStore.set PyInMemStore.emptyStore "k" "v" 0) "k" 5).1 = none := by
  decide

/-- Claim C3.  Not every public operation is total: after a plain
`set("a", "x")`, a `ttl("a")` call raises `OverflowError` (`int(float("inf"))`)
and a `delete("a")` call raises `KeyError` (`del self.expiry["a"]` on a
`defaultdict` holding no entry for `"a"`); both raises are modelled by
`none`. -/
theorem C3_ttl_and_delete_raise :
    (PyInMemStore.ttl (PyInMemStore.set PyInMemStore.emptyStore "a" "x" 0) "a" 1).1 = none ∧
    PyInMemStore.delete (PyInMemStore.set PyInMemStore.emptyStore "a" "x" 0) "a" = none := by
  decide

/-- Claim C4.  `delete` on an absent key is indeed a no-op, but `delete` on a
key that is present because of a plain `set` (no `expire` or `ttl` call in
between) raises `KeyError` rather than removing the bookkeeping: `set` writes
no entry into `expiry`, and `del self.expiry[key]` does not consult the
`defaultdict` default. -/
theorem C4_delete_after_set_raises :
    PyInMemStore.delete (PyInMemStore.set PyInMemStore.emptyStore "k" "v" 3) "k" = none ∧
    PyInMemStore.delete PyInMemStore.emptyStore "k" = some PyInMemStore.emptyStore := by
  decide

/-- Claim C5.  `expire(key, seconds)` on an absent key changes no state; on a
present key it leaves the values, the creation times and every other key's
expiry unchanged and records `now + seconds` when `seconds > 0`, and the past
sentinel `-1` when `seconds <= 0` — a timestamp strictly before every
non-negative `now`, so the key is immediately eligible for removal on the next
sweeper check. -/
theorem C5_expire_semantics (s : PyInMemStore) (k : String) (seconds : ℤ) (now : ℚ) :
    (dcontains s.key_value_pairs k = false → PyInMemStore.expire s k seconds now = s) ∧
    (dcontains s.key_value_pairs k = true →
      (PyInMemStore.expire s k seconds now).key_value_pairs = s.key_value_pairs ∧
      (PyInMemStore.expire s k seconds now).creation_times = s.creation_times ∧
      (∀ k2, k2 ≠ k →
        dlookup (PyInMemStore.expire s k seconds now).expiry k2 = dlookup s.expiry k2) ∧
      (0 < seconds →
        PyInMemStore.expiryOf (PyInMemStore.expire s k seconds now) k =
          PyFloat.fin (now + (seconds : ℚ))) ∧
      (seconds ≤ 0 →
        PyInMemStore.expiryOf (PyInMemStore.expire s k seconds now) k = PyFloat.fin (-1) ∧
        (0 ≤ now →
          PyFloat.ltNow (PyInMemStore.expiryOf (PyInMemStore.expire s k seconds now) k) now
            = true))) := by
  constructor
  · intro h
    unfold PyInMemStore.expire
    rw [h]
    simp
  · intro h
    refine ⟨?_, ?_, ?_, ?_, ?_⟩
    · unfold PyInMemStore.expire
      rw [h, if_pos rfl]
      split <;> rfl
    · unfold PyInMemStore.expire
      rw [h, if_pos rfl]
      split <;> rfl
    · intro k2 hk2
      unfold PyInMemStore.expire
      rw [h, if_pos rfl]
      split <;> (dsimp only; rw [dlookup_dset, if_neg hk2])
    · intro hpos
      unfold PyInMemStore.expire PyInMemStore.expiryOf
      rw [h, if_pos rfl, if_pos hpos]
      dsimp only
      rw [dlookup_dset, if_pos rfl]
      rfl
    · intro hnonpos
      have hnlt : ¬ 0 < seconds := not_lt.mpr hnonpos
      have hfin : PyInMemStore.expiryOf (PyInMemStore.expire s k seconds now) k =
          PyFloat.fin (-1) := by
        unfold PyInMemStore.expire PyInMemStore.expiryOf
        rw [h, if_pos rfl, if_neg hnlt]
        dsimp only
        rw [dlookup_dset, if_pos rfl]
        rfl
      refine ⟨hfin, fun hnow => ?_⟩
      rw [hfin]
      show decide ((-1 : ℚ) < now) = true
      exact decide_eq_true (by linarith)

/-- Claim C5, witness at concrete inputs covering all three branches. -/
theorem C5_expire_semantics_witness :
    PyInMemStore.expiryOf
        (PyInMemStore.expire (PyInMemStore.set PyInMemStore.emptyStore "k" "v" 0) "k" 7 2) "k" =
      PyFloat.fin (2 + ((7 : ℤ) : ℚ)) ∧
    PyInMemStore.expiryOf
        (PyInMemStore.expire (PyInMemStore.set PyInMemStore.emptyStore "k" "v" 0) "k" (-3) 2)
        "k" = PyFloat.fin (-1) ∧
    PyFloat.ltNow
        (PyInMemStore.expiryOf
          (PyInMemStore.expire (PyInMemStore.set PyInMemStore.emptyStore "k" "v" 0) "k" (-3) 2)
          "k") 2 = true ∧
    PyInMemStore.expire PyInMemStore.emptyStore "k" 7 2 = PyInMemStore.emptyStore := by
  refine ⟨?_, ?_, ?_, ?_⟩
  · exact ((C5_expire_semantics (PyInMemStore.set PyInMemStore.emptyStore "k" "v" 0) "k" 7
      2).2 (by decide)).2.2.2.1 (by decide)
  · exact (((C5_expire_semantics (PyInMemStore.set PyInMemStore.emptyStore "k" "v" 0) "k" (-3)
      2).2 (by decide)).2.2.2.2 (by decide)).1
  · exact ((((C5_expire_semantics (PyInMemStore.set PyInMemStore.emptyStore "k" "v" 0) "k" (-3)
      2).2 (by decide)).2.2.2.2 (by decide)).2) (by decide)
  · exact (C5_expire_semantics PyInMemStore.emptyStore "k" 7 2).1 (by decide)

/-- Claim C6.  `set(key, value)` always succeeds, records the value and
`createdAt = now` for that key, leaves the whole expiry dictionary (hence the
key's own `expiresAt`) unchanged, and modifies no other key's value or
creation time. -/
theorem C6_set_semantics (s : PyInMemStore) (k v : String) (now : ℚ) :
    PyInMemStore.get (PyInMemStore.set s k v now) k = some v ∧
    dlookup (PyInMemStore.set s k v now).creation_times k = some now ∧
    (PyInMemStore.set s k v now).expiry = s.expiry ∧
    (∀ k2, k2 ≠ k →
      dlookup (PyInMemStore.set s k v now).key_value_pairs k2 = dlookup s.key_value_pairs k2 ∧
      dlookup (PyInMemStore.set s k v now).creation_times k2 = dlookup s.creation_times k2) := by
  refine ⟨?_, ?_, rfl, ?_⟩
  · unfold PyInMemStore.get PyInMemStore.set
    dsimp only
    rw [dlookup_dset, if_pos rfl]
  · unfold PyInMemStore.set
    dsimp only
    rw [dlookup_dset, if_pos rfl]
  · intro k2 hk2
    constructor
    · unfold PyInMemStore.set
      dsimp only
      rw [dlookup_dset, if_neg hk2]
    · unfold PyInMemStore.set
      dsimp only
      rw [dlookup_dset, if_neg hk2]

/-- Claim C6, witness at a concrete input. -/
theorem C6_set_semantics_witness :
    PyInMemStore.get (PyInMemStore.set PyInMemStore.emptyStore "a" "1" 4) "a" = some "1" ∧
    dlookup (PyInMemStore.set PyInMemStore.emptyStore "a" "1" 4).creation_times "a" = some 4 ∧
    (PyInMemStore.set PyInMemStore.emptyStore "a" "1" 4).expiry =
      PyInMemStore.emptyStore.expiry ∧
    dlookup (PyInMemStore.set PyInMemStore.emptyStore "a" "1" 4).key_value_pairs "b" =
      dlookup PyInMemStore.emptyStore.key_value_pairs "b" := by
  obtain ⟨h1, h2, h3, h4⟩ := C6_set_semantics PyInMemStore.emptyStore "a" "1" 4
  exact ⟨h1, h2, h3, (h4 "b" (by decide)).1⟩

/-- Claim C7.  One sweeper tick at time `now` (one pass of
`_cleanup_expired_keys` under the lock, modelled as an atomic state
transition) that completes without a raise removes exactly the entries whose
recorded expiry is strictly before `now` — a key with no recorded expiry reads
as `float("inf")` and is never collected — and leaves every other entry of all
three dictionaries unchanged. -/
theorem C7_cleanup_removes_exactly_expired (s : PyInMemStore) (now : ℚ) (s2 : PyInMemStore)
    (hnd : (dkeys s.expiry).Nodup) (hc : PyInMemStore.cleanupTick s now = some s2)
    (k : String) :
    dlookup s2.key_value_pairs k =
      (if PyFloat.ltNow (PyInMemStore.expiryOf s k) now = true then none
       else dlookup s.key_value_pairs k) ∧
    dlookup s2.expiry k =
      (if PyFloat.ltNow (PyInMemStore.expiryOf s k) now = true then none
       else dlookup s.expiry k) ∧
    dlookup s2.creation_times k =
      (if PyFloat.ltNow (PyInMemStore.expiryOf s k) now = true then none
       else dlookup s.creation_times k) := by
  have hmem := mem_expiredKeys s now k hnd
  unfold PyInMemStore.cleanupTick at hc
  split at hc
  · obtain rfl := Option.some_inj.mp hc
    refine ⟨?_, ?_, ?_⟩ <;>
      · dsimp only
        rw [dlookup_ddelAll]
        by_cases hk : PyFloat.ltNow (PyInMemStore.expiryOf s k) now = true
        · rw [if_pos (hmem.mpr hk), if_pos hk]
        · rw [if_neg (fun hin => hk (hmem.mp hin)), if_neg hk]
  · exact absurd hc (by simp)

/-- Claim C7, witness: a store with one expired and one live key. -/
theorem C7_cleanup_witness :
    dlookup (PyInMemStore.mk [("b", "2")] [] [("b", 0)]).key_value_pairs "a" =
      (if PyFloat.ltNow
          (PyInMemStore.expiryOf
            (PyInMemStore.mk [("a", "1"), ("b", "2")] [("a", PyFloat.fin 1)]
              [("a", 0), ("b", 0)]) "a") 5 = true then none
       else dlookup (PyInMemStore.mk [("a", "1"), ("b", "2")] [("a", PyFloat.fin 1)]
          [("a", 0), ("b", 0)]).key_value_pairs "a") ∧
    dlookup (PyInMemStore.mk [("b", "2")] [] [("b", 0)]).expiry "a" =
      (if PyFloat.ltNow
          (PyInMemStore.expiryOf
            (PyInMemStore.mk [("a", "1"), ("b", "2")] [("a", PyFloat.fin 1)]
              [("a", 0), ("b", 0)]) "a") 5 = true then none
       else dlookup (PyInMemStore.mk [("a", "1"), ("b", "2")] [("a", PyFloat.fin 1)]
          [("a", 0), ("b", 0)]).expiry "a") ∧
    dlookup (PyInMemStore.mk [("b", "2")] [] [("b", 0)]).creation_times "a" =
      (if PyFloat.ltNow
          (PyInMemStore.expiryOf
            (PyInMemStore.mk [("a", "1"), ("b", "2")] [("a", PyFloat.fin 1)]
              [("a", 0), ("b", 0)]) "a") 5 = true then none
       else dlookup (PyInMemStore.mk [("a", "1"), ("b", "2")] [("a", PyFloat.fin 1)]
          [("a", 0), ("b", 0)]).creation_times "a") :=
  C7_cleanup_removes_exactly_expired
    (PyInMemStore.mk [("a", "1"), ("b", "2")] [("a", PyFloat.fin 1)] [("a", 0), ("b", 0)])
    5 (PyInMemStore.mk [("b", "2")] [] [("b", 0)]) (by decide) (by decide) "a"

/-- Claim C8.  Immediately after `set(k, v)`, with no time passing and no
other operation in between, `get(k)` returns `v`, in every starting state. -/
theorem C8_get_after_set (s : PyInMemStore) (k v : String) (now : ℚ) :
    PyInMemStore.get (PyInMemStore.set s k v now) k = some v := by
  unfold PyInMemStore.get PyInMemStore.set
  dsimp only
  rw [dlookup_dset, if_pos rfl]

/-- Claim C9.  For a present key and any `seconds <= 0`, `expire` stores the
past sentinel `-1`, and a subsequent `ttl` at any non-negative time computes
`max(0, int(-1 - now))`, which is exactly `0` — not `-1` — resolving the
spec's stated ambiguity in favour of `0`. -/
theorem C9_ttl_zero_after_nonpos_expire (s : PyInMemStore) (k : String) (seconds : ℤ)
    (tE now : ℚ) (hmem : dcontains s.key_value_pairs k = true) (hs : seconds ≤ 0)
    (hnow : 0 ≤ now) :
    (PyInMemStore.ttl (PyInMemStore.expire s k seconds tE) k now).1 = some 0 := by
  have hkvp : (PyInMemStore.expire s k seconds tE).key_value_pairs = s.key_value_pairs := by
    unfold PyInMemStore.expire
    rw [hmem, if_pos rfl]
    split <;> rfl
  have hfin : PyInMemStore.expiryOf (PyInMemStore.expire s k seconds tE) k =
      PyFloat.fin (-1) := by
    unfold PyInMemStore.expire PyInMemStore.expiryOf
    rw [hmem, if_pos rfl, if_neg (not_lt.mpr hs)]
    dsimp only
    rw [dlookup_dset, if_pos rfl]
    rfl
  unfold PyInMemStore.ttl
  rw [show dcontains (PyInMemStore.expire s k seconds tE).key_value_pairs k = true by
    rw [dcontains, hkvp, ← dcontains]; exact hmem]
  rw [if_pos rfl, hfin]
  dsimp only
  rw [max_eq_left (pyint_nonpos _ (by linarith))]

/-- Claim C9, witness at a concrete input. -/
theorem C9_ttl_zero_after_nonpos_expire_witness :
    (PyInMemStore.ttl
        (PyInMemStore.expire (PyInMemStore.set PyInMemStore.emptyStore "k" "v" 0) "k" (-5) 0)
        "k" 10).1 = some 0 :=
  C9_ttl_zero_after_nonpos_expire (PyInMemStore.set PyInMemStore.emptyStore "k" "v" 0)
    "k" (-5) 0 10 (by decide) (by decide) (by decide)

/-- Claim C10.  A key with no entry in the expiry dictionary reads as the
`float("inf")` default; `set` never writes an expiry entry, and a sweeper tick
removes only keys whose recorded expiry is strictly below `now`, so such a key
survives every tick with its value untouched (until an explicit delete). -/
theorem C10_no_expire_no_sweep (s : PyInMemStore) (k : String)
    (h : dlookup s.expiry k = none) :
    PyInMemStore.expiryOf s k = PyFloat.inf ∧
    (∀ v now, dlookup (PyInMemStore.set s k v now).expiry k = none) ∧
    (∀ now s2, PyInMemStore.cleanupTick s now = some s2 →
      dlookup s2.key_value_pairs k = dlookup s.key_value_pairs k ∧
      dlookup s2.expiry k = none) := by
  refine ⟨?_, ?_, ?_⟩
  · rw [PyInMemStore.expiryOf, h]
    rfl
  · intro v now
    exact h
  · intro now s2 hc
    have hknotin : k ∉ PyInMemStore.expiredKeys s now := by
      intro hin
      have hk : k ∈ dkeys s.expiry := mem_dkeys_of_filter s.expiry _ k hin
      rw [mem_dkeys, h] at hk
      simp at hk
    unfold PyInMemStore.cleanupTick at hc
    split at hc
    · obtain rfl := Option.some_inj.mp hc
      constructor
      · dsimp only
        rw [dlookup_ddelAll, if_neg hknotin]
      · dsimp only
        rw [dlookup_ddelAll, if_neg hknotin, h]
    · exact absurd hc (by simp)

/-- Claim C10, witness at a concrete input. -/
theorem C10_no_expire_no_sweep_witness :
    PyInMemStore.expiryOf (PyInMemStore.set PyInMemStore.emptyStore "k" "v" 0) "k" =
      PyFloat.inf ∧
    dlookup (PyInMemStore.set (PyInMemStore.set PyInMemStore.emptyStore "k" "v" 0)
        "k" "w" 3).expiry "k" = none ∧
    dlookup (PyInMemStore.mk [("k", "v")] [] [("k", 0)]).key_value_pairs "k" =
      dlookup (PyInMemStore.set PyInMemStore.emptyStore "k" "v" 0).key_value_pairs "k" ∧
    dlookup (PyInMemStore.mk [("k", "v")] [] [("k", 0)]).expiry "k" = none := by
  obtain ⟨h1, h2, h3⟩ :=
    C10_no_expire_no_sweep (PyInMemStore.set PyInMemStore.emptyStore "k" "v" 0) "k" (by decide)
  refine ⟨h1, h2 "w" 3, ?_, ?_⟩
  · exact (h3 5 (PyInMemStore.mk [("k", "v")] [] [("k", 0)]) (by decide)).1
  · exact (h3 5 (PyInMemStore.mk [("k", "v")] [] [("k", 0)]) (by decide)).2
